import Mathlib

/-!
Verification of the chat-completion client: data model, streaming frame
decoder, transport calls and chat-loop ledger handling, embedded from
`src/task/app.py`, `src/task/clients/client.py` and
`src/task/clients/custom_client.py`.

Python strings are embedded as `List Char` (the decoder works char by
char) or `String`; Python exceptions are an explicit `Except` error path.
-/

/-- Modelled from the spec: `task/models/role.py` is not under `src/`.
Section 3 fixes the closed role set; the sources use `Role.SYSTEM`,
`Role.USER` and `Role.AI`. -/
inductive Role where
  | SYSTEM
  | USER
  | AI
deriving DecidableEq

/-- Modelled from the spec: `task/models/message.py` is not under `src/`.
Section 3 gives Message = role tag plus UTF-8 text content. -/
structure Message where
  role : Role
  content : String
deriving DecidableEq

/-- The ways a modelled call can raise: Python runtime errors the source
can hit (`TypeError`, `KeyError`, `IndexError`, `AttributeError`), a JSON
decode failure from `json.loads` / `response.json()`, and the two
`raise Exception(...)` sites of the sources (the HTTP-status message of
`custom_client.py` line 52 carries the status code). -/
inductive PyErr where
  | typeError
  | keyError
  | indexError
  | attributeError
  | jsonDecodeError
  | httpStatus (code : Nat)
  | exceptionMsg (msg : String)
deriving DecidableEq

/-- JSON values as produced by `json.loads`. Numbers keep their source
lexeme (the decoder never computes with them, it only type-checks them),
so no floating point is modelled. -/
inductive Json where
  | null
  | bool (b : Bool)
  | num (lexeme : List Char)
  | str (s : String)
  | arr (elems : List Json)
  | obj (kvs : List (String × Json))

/-- Whitespace accepted between JSON tokens by `json.loads`. -/
def jsonWs (c : Char) : Bool :=
  c == ' ' || c == '\t' || c == '\n' || c == '\r'

/-- Drop inter-token whitespace. -/
def skipWs (cs : List Char) : List Char := cs.dropWhile jsonWs

/-- Opening curly bracket character. -/
def lbrace : Char := Char.ofNat 123

/-- Closing curly bracket character. -/
def rbrace : Char := Char.ofNat 125

/-- One-character JSON string escapes (backspace and form feed written by
code point). -/
def escChar : Char → Option Char
  | '"' => some '"'
  | '\\' => some '\\'
  | '/' => some '/'
  | 'b' => some (Char.ofNat 8)
  | 'f' => some (Char.ofNat 12)
  | 'n' => some '\n'
  | 'r' => some '\r'
  | 't' => some '\t'
  | _ => none

/-- Hexadecimal digit value. -/
def hexVal (c : Char) : Option Nat :=
  let n := c.toNat
  if 48 ≤ n ∧ n ≤ 57 then some (n - 48)
  else if 97 ≤ n ∧ n ≤ 102 then some (n - 87)
  else if 65 ≤ n ∧ n ≤ 70 then some (n - 55)
  else none

/-- Value of four hex digits. -/
def hex4 (h1 h2 h3 h4 : Char) : Option Nat :=
  match hexVal h1, hexVal h2, hexVal h3, hexVal h4 with
  | some a, some b, some c, some d => some (((a * 16 + b) * 16 + c) * 16 + d)
  | _, _, _, _ => none

/-- Body of a JSON string after the opening quote: returns the decoded
characters and the input remaining after the closing quote. `\uXXXX`
escapes are decoded, surrogate pairs combined; a lone surrogate escape is
outside the model (a Lean `Char` is a Unicode scalar) and rejected. -/
def parseStrBody : List Char → Option (List Char × List Char)
  | [] => none
  | c :: rest =>
    if c == '"' then some ([], rest)
    else if c == '\\' then
      match rest with
      | [] => none
      | 'u' :: h1 :: h2 :: h3 :: h4 :: rest2 =>
        (match hex4 h1 h2 h3 h4 with
         | none => none
         | some n =>
           if n < 55296 ∨ 57343 < n then
             (parseStrBody rest2).map (fun p => (Char.ofNat n :: p.1, p.2))
           else if n < 56320 then
             match rest2 with
             | '\\' :: 'u' :: k1 :: k2 :: k3 :: k4 :: rest3 =>
               (match hex4 k1 k2 k3 k4 with
                | none => none
                | some m =>
                  if 56320 ≤ m ∧ m ≤ 57343 then
                    (parseStrBody rest3).map
                      (fun p => (Char.ofNat (65536 + (n - 55296) * 1024 + (m - 56320)) :: p.1, p.2))
                  else none)
             | _ => none
           else none)
      | e :: rest2 =>
        match escChar e with
        | some ec => (parseStrBody rest2).map (fun p => (ec :: p.1, p.2))
        | none => none
    else if c.toNat < 32 then none
    else (parseStrBody rest).map (fun p => (c :: p.1, p.2))

/-- Split a maximal run of decimal digits off the front. -/
def digitsSplit (cs : List Char) : List Char × List Char :=
  (cs.takeWhile Char.isDigit, cs.dropWhile Char.isDigit)

/-- Integer part of a JSON number (`0` or a nonzero digit followed by
digits). -/
def parseIntPart : List Char → Option (List Char × List Char)
  | [] => none
  | c :: rest =>
    if c == '0' then some ([c], rest)
    else if c.isDigit then
      let p := digitsSplit rest
      some (c :: p.1, p.2)
    else none

/-- Optional fraction part of a JSON number. -/
def parseFracPart (cs : List Char) : Option (List Char × List Char) :=
  match cs with
  | '.' :: rest =>
    let p := digitsSplit rest
    if p.1.isEmpty then none else some ('.' :: p.1, p.2)
  | _ => some ([], cs)

/-- Optional exponent part of a JSON number. -/
def parseExpPart (cs : List Char) : Option (List Char × List Char) :=
  match cs with
  | c :: rest =>
    if c == 'e' || c == 'E' then
      let sp : List Char × List Char :=
        match rest with
        | s :: r2 => if s == '+' || s == '-' then ([s], r2) else ([], rest)
        | [] => ([], rest)
      let p := digitsSplit sp.2
      if p.1.isEmpty then none else some (c :: (sp.1 ++ p.1), p.2)
    else some ([], cs)
  | [] => some ([], cs)

/-- A JSON number; the validated lexeme is kept as-is. -/
def parseNum (cs : List Char) : Option (Json × List Char) :=
  let sp : List Char × List Char :=
    match cs with
    | c :: r => if c == '-' then (['-'], r) else ([], cs)
    | [] => ([], cs)
  match parseIntPart sp.2 with
  | none => none
  | some (ip, r1) =>
    match parseFracPart r1 with
    | none => none
    | some (fp, r2) =>
      match parseExpPart r2 with
      | none => none
      | some (ep, r3) => some (.num (sp.1 ++ ip ++ fp ++ ep), r3)

mutual

/-- One JSON value, fuel-bounded recursive descent mirroring `json.loads`
(which likewise bounds nesting by the interpreter recursion limit). Also
accepts `NaN` / `Infinity` / `-Infinity`, as Python's decoder does by
default. -/
def parseVal : Nat → List Char → Option (Json × List Char)
  | 0, _ => none
  | fuel + 1, cs =>
    match skipWs cs with
    | [] => none
    | c :: rest =>
      if c == '"' then (parseStrBody rest).map (fun p => (Json.str (String.mk p.1), p.2))
      else if c == lbrace then
        match skipWs rest with
        | [] => none
        | c2 :: rest2 =>
          if c2 == rbrace then some (Json.obj [], rest2)
          else parseMembers fuel (c2 :: rest2) []
      else if c == '[' then
        match skipWs rest with
        | [] => none
        | c2 :: rest2 =>
          if c2 == ']' then some (Json.arr [], rest2)
          else parseElems fuel (c2 :: rest2) []
      else if "true".toList.isPrefixOf (c :: rest) then some (Json.bool true, (c :: rest).drop 4)
      else if "false".toList.isPrefixOf (c :: rest) then some (Json.bool false, (c :: rest).drop 5)
      else if "null".toList.isPrefixOf (c :: rest) then some (Json.null, (c :: rest).drop 4)
      else if "NaN".toList.isPrefixOf (c :: rest) then some (Json.num "NaN".toList, (c :: rest).drop 3)
      else if "Infinity".toList.isPrefixOf (c :: rest) then
        some (Json.num "Infinity".toList, (c :: rest).drop 8)
      else if "-Infinity".toList.isPrefixOf (c :: rest) then
        some (Json.num "-Infinity".toList, (c :: rest).drop 9)
      else parseNum (c :: rest)

/-- Elements of a JSON array after the opening bracket (first element not
yet consumed). -/
def parseElems : Nat → List Char → List Json → Option (Json × List Char)
  | 0, _, _ => none
  | fuel + 1, cs, acc =>
    match parseVal fuel cs with
    | none => none
    | some (v, r) =>
      match skipWs r with
      | ',' :: r2 => parseElems fuel r2 (acc ++ [v])
      | ']' :: r2 => some (Json.arr (acc ++ [v]), r2)
      | _ => none

/-- Members of a JSON object after the opening bracket (first key not yet
consumed). -/
def parseMembers : Nat → List Char → List (String × Json) → Option (Json × List Char)
  | 0, _, _ => none
  | fuel + 1, cs, acc =>
    match skipWs cs with
    | '"' :: r =>
      (match parseStrBody r with
       | none => none
       | some (k, r2) =>
         match skipWs r2 with
         | ':' :: r3 =>
           (match parseVal fuel r3 with
            | none => none
            | some (v, r4) =>
              match skipWs r4 with
              | ',' :: r5 => parseMembers fuel r5 (acc ++ [(String.mk k, v)])
              | c6 :: r5 =>
                if c6 == rbrace then some (Json.obj (acc ++ [(String.mk k, v)]), r5) else none
              | [] => none)
         | _ => none)
    | _ => none

end

/-- Modelled from the spec: `json.loads` is external library code; section
4.4 step 5 calls it "parse the payload as a structured record". Total
parse of one JSON document, requiring the whole input to be consumed. -/
def Json.parse (cs : List Char) : Option Json :=
  match parseVal (2 * cs.length + 2) cs with
  | some (j, rest) => if skipWs rest = [] then some j else none
  | none => none

/-- Python `str.strip()` with no argument: whitespace removed from both
ends (`custom_client.py` line 100). -/
def pyStrip (l : List Char) : List Char :=
  ((l.dropWhile Char.isWhitespace).reverse.dropWhile Char.isWhitespace).reverse

/-- Association-list lookup where the last binding wins, matching the
dict `json.loads` builds when a key repeats. -/
def objLookupLast (kvs : List (String × Json)) (k : String) : Option Json :=
  match kvs with
  | [] => none
  | (k1, v1) :: rest =>
    match objLookupLast rest k with
    | some v => some v
    | none => if k1 == k then some v1 else none

/-- Python substring test `needle in hay` on strings. -/
def strContainsSub (hay needle : List Char) : Bool :=
  hay.tails.any (fun t => needle.isPrefixOf t)

/-- Python `k in j` for a string `k`: key membership for a dict, element
equality for a list (a string equals only an equal string), substring for
a string, `TypeError` for non-iterable values. -/
def pyContains (j : Json) (k : String) : Except PyErr Bool :=
  match j with
  | .obj kvs => .ok (kvs.any (fun kv => kv.1 == k))
  | .arr xs =>
    .ok (xs.any (fun x => match x with | .str s => s == k | _ => false))
  | .str s => .ok (strContainsSub s.toList k.toList)
  | _ => .error .typeError

/-- Python subscript `j[k]` for a string key `k`: dict lookup
(`KeyError` when absent), `TypeError` on lists and strings (indices must
be integers) and on non-subscriptable values. -/
def pySubscriptStr (j : Json) (k : String) : Except PyErr Json :=
  match j with
  | .obj kvs =>
    match objLookupLast kvs k with
    | some v => .ok v
    | none => .error .keyError
  | _ => .error .typeError

/-- Python `len(j)`: length of a list, string or dict (distinct keys),
`TypeError` otherwise. -/
def pyLen (j : Json) : Except PyErr Nat :=
  match j with
  | .arr xs => .ok xs.length
  | .str s => .ok s.length
  | .obj kvs => .ok ((kvs.map Prod.fst).eraseDups.length)
  | _ => .error .typeError

/-- Python subscript `j[0]`: first list element (`IndexError` when
empty), one-character string for a string, `KeyError` for a dict whose
keys are JSON strings, `TypeError` otherwise. -/
def pyIndexZero (j : Json) : Except PyErr Json :=
  match j with
  | .arr [] => .error .indexError
  | .arr (x :: _) => .ok x
  | .str s =>
    match s.toList with
    | [] => .error .indexError
    | c :: _ => .ok (Json.str (String.mk [c]))
  | .obj _ => .error .keyError
  | _ => .error .typeError

/-- Python `j.get(k, d)`: available on dicts only (`AttributeError`
otherwise). -/
def pyGetDefault (j : Json) (k : String) (d : Json) : Except PyErr Json :=
  match j with
  | .obj kvs =>
    match objLookupLast kvs k with
    | some v => .ok v
    | none => .ok d
  | _ => .error .attributeError

/-- Body of the per-chunk extraction of `custom_client.py` lines 119-127:
`if 'choices' in chunk_json and len(chunk_json['choices']) > 0:` then
`delta = chunk_json['choices'][0].get('delta', {})`, then
`if 'content' in delta: content_chunk = delta['content']`. Returns the
collected value (`some v`), no value (`none`), or the uncaught Python
error these expressions raise. -/
def extractDelta (chunk_json : Json) : Except PyErr (Option Json) :=
  match pyContains chunk_json "choices" with
  | .error e => .error e
  | .ok false => .ok none
  | .ok true =>
    match pySubscriptStr chunk_json "choices" with
    | .error e => .error e
    | .ok cs =>
      match pyLen cs with
      | .error e => .error e
      | .ok n =>
        if n > 0 then
          match pyIndexZero cs with
          | .error e => .error e
          | .ok c0 =>
            match pyGetDefault c0 "delta" (Json.obj []) with
            | .error e => .error e
            | .ok delta =>
              match pyContains delta "content" with
              | .error e => .error e
              | .ok false => .ok none
              | .ok true =>
                match pySubscriptStr delta "content" with
                | .error e => .error e
                | .ok v => .ok (some v)
        else .ok none

/-- The literal line marker `'data: '` of `custom_client.py` line 107. -/
def dataTag : List Char := "data: ".toList

/-- The end-of-stream sentinel payload of `custom_client.py` line 111. -/
def doneTag : List Char := "[DONE]".toList

/-- The line loop of `custom_client.py` lines 99-130, parameterised by
the payload parse function (`json.loads` in the source): strip each line,
skip empty lines and lines without the `'data: '` marker, stop at the
`'[DONE]'` sentinel, skip payloads that fail to parse
(`except json.JSONDecodeError: continue`), and collect each extracted
delta value into `contents`. Navigation errors are uncaught and abort. -/
def processLinesWith (parse : List Char → Option Json) :
    List (List Char) → List Json → Except PyErr (List Json)
  | [], contents => .ok contents
  | line :: rest, contents =>
    let line_str := pyStrip line
    if line_str.isEmpty then processLinesWith parse rest contents
    else if dataTag.isPrefixOf line_str then
      let data_content := line_str.drop 6
      if data_content = doneTag then .ok contents
      else
        match parse data_content with
        | none => processLinesWith parse rest contents
        | some chunk_json =>
          match extractDelta chunk_json with
          | .error e => .error e
          | .ok none => processLinesWith parse rest contents
          | .ok (some v) => processLinesWith parse rest (contents ++ [v])
    else processLinesWith parse rest contents

/-- Python `''.join(contents)` (`custom_client.py` line 135): concatenates
when every element is a string and raises `TypeError` otherwise. -/
def joinStr : List Json → Except PyErr String
  | [] => .ok ""
  | Json.str s :: rest =>
    (match joinStr rest with
     | .ok t => .ok (s ++ t)
     | .error e => .error e)
  | _ :: _ => .error .typeError

/-- Modelled from the spec: the line reassembly of
`async for line in response.content` (`custom_client.py` line 99) lives in
the external aiohttp stream reader; section 4.4 step 1 specifies it:
split arriving bytes at line terminators and hold back a trailing partial
line. `splitNl` returns the complete lines (terminator included) and the
held-back partial tail of one byte sequence. -/
def splitNl : List Char → List (List Char) × List Char
  | [] => ([], [])
  | c :: rest =>
    if c = '\n' then
      (['\n'] :: (splitNl rest).1, (splitNl rest).2)
    else
      match splitNl rest with
      | ([], buf) => ([], c :: buf)
      | (l :: ls, buf) => ((c :: l) :: ls, buf)

/-- Feed one arriving chunk: the held-back partial line is prefixed to the
chunk before re-splitting (spec section 4.4 step 1). -/
def feedChunk (st : List (List Char) × List Char) (chunk : List Char) :
    List (List Char) × List Char :=
  (st.1 ++ (splitNl (st.2 ++ chunk)).1, (splitNl (st.2 ++ chunk)).2)

/-- All lines delivered by the reader across a chunked arrival: fold the
chunks through the reassembly buffer, then flush the final unterminated
line at end of stream (as aiohttp's `readline` does at EOF). -/
def linesOfChunks (chunks : List (List Char)) : List (List Char) :=
  let st := chunks.foldl feedChunk ([], [])
  if st.2 = [] then st.1 else st.1 ++ [st.2]

/-- `stream_completion` of `custom_client.py` lines 64-136, parameterised
by the payload parse function, with the HTTP interaction shallowly
embedded: the response is its status plus the chunked body byte stream.
The status is only printed by the source (line 96), never checked, so the
result does not depend on it. On success the collected fragments are
joined and wrapped as an Assistant message (lines 134-136). -/
def streamWith (parse : List Char → Option Json) (status : Nat)
    (chunks : List (List Char)) : Except PyErr Message :=
  match processLinesWith parse (linesOfChunks chunks) [] with
  | .error e => .error e
  | .ok contents =>
    match joinStr contents with
    | .error e => .error e
    | .ok full_content => .ok (Message.mk Role.AI full_content)

/-- The custom client's `stream_completion` with its actual payload
decoder `json.loads`. -/
def CustomClient.stream_completion (status : Nat) (chunks : List (List Char)) :
    Except PyErr Message :=
  streamWith Json.parse status chunks

/-- `get_completion` of `custom_client.py` lines 18-62: the logging step
(line 47) calls `response.json()` before anything else that can fail, so
an unparseable body raises a JSON decode error first; then a non-200
status raises `Exception(f"HTTP {status_code}: ...")` (lines 51-52); then
`response_json["choices"][0]["message"]["content"]` is navigated with
Python subscript semantics (line 56) and returned with the Assistant
role (line 62). -/
def CustomClient.get_completion (status_code : Nat) (body : List Char) :
    Except PyErr (Role × Json) :=
  match Json.parse body with
  | none => .error .jsonDecodeError
  | some response_json =>
    if status_code ≠ 200 then .error (.httpStatus status_code)
    else
      match pySubscriptStr response_json "choices" with
      | .error e => .error e
      | .ok cs =>
        match pyIndexZero cs with
        | .error e => .error e
        | .ok c0 =>
          match pySubscriptStr c0 "message" with
          | .error e => .error e
          | .ok m =>
            match pySubscriptStr m "content" with
            | .error e => .error e
            | .ok content => .ok (Role.AI, content)

/-- Delta record of one parsed SDK stream chunk (`chunk.choices[0].delta`
in `client.py`); the SDK types `content` as optional text. -/
structure SDKDelta where
  content : Option String
deriving DecidableEq

/-- One choice of a parsed SDK stream chunk. -/
structure SDKChoice where
  delta : SDKDelta
deriving DecidableEq

/-- One parsed chunk delivered by the SDK's streaming iterator. -/
structure SDKChunk where
  choices : List SDKChoice
deriving DecidableEq

/-- Message record of a non-streaming SDK response choice. -/
structure SDKRespMessage where
  content : String
deriving DecidableEq

/-- One choice of a non-streaming SDK response. -/
structure SDKRespChoice where
  message : SDKRespMessage
deriving DecidableEq

/-- A non-streaming SDK response (`response.choices` in `client.py`). -/
structure SDKResponse where
  choices : List SDKRespChoice
deriving DecidableEq

/-- `get_completion` of `client.py` lines 24-45:
`if not response.choices: raise Exception("No choices in response found")`,
otherwise wrap `response.choices[0].message.content` as an Assistant
message. -/
def Client.get_completion (response : SDKResponse) : Except PyErr Message :=
  match response.choices with
  | [] => .error (.exceptionMsg "No choices in response found")
  | c :: _ => .ok (Message.mk Role.AI c.message.content)

/-- The fragment collection of `client.py` lines 62-68: a chunk
contributes `chunk.choices[0].delta.content` exactly when
`chunk.choices and chunk.choices[0].delta.content` is truthy, i.e. the
choices list is non-empty and the content is a present, non-empty
string. -/
def Client.stream_fragments : List SDKChunk → List String
  | [] => []
  | ch :: rest =>
    match ch.choices with
    | [] => Client.stream_fragments rest
    | c :: _ =>
      match c.delta.content with
      | none => Client.stream_fragments rest
      | some s => if s = "" then Client.stream_fragments rest else s :: Client.stream_fragments rest

/-- Fold of string concatenation, modelling `"".join` over a list already
known to hold strings. -/
def concatAll (xs : List String) : String := xs.foldr (fun a b => a ++ b) ""

/-- `stream_completion` of `client.py` lines 47-75: collect the truthy
delta contents in arrival order and return them joined as one Assistant
message. -/
def Client.stream_completion (chunks : List SDKChunk) : Message :=
  Message.mk Role.AI (concatAll (Client.stream_fragments chunks))

/-- One turn of the chat loop, `app.py` lines 51-71. Modelled from the
spec where it leaves `src/`: `task/models/conversation.py` is not under
`src/`, and section 4.2 fixes the ledger as an ordered message sequence
with append (`add_message`) and remove-last (`conversation.messages.pop()`).
The turn appends the User message, invokes the completion call on the
full ledger, appends the returned Assistant message on success, and pops
the just-appended User message when the call raises. -/
def turn (conversation : List Message) (user_message : Message)
    (completion : List Message → Except PyErr Message) : List Message :=
  let afterUser := conversation ++ [user_message]
  match completion afterUser with
  | .ok assistant_message => afterUser ++ [assistant_message]
  | .error _ => afterUser.dropLast

/-- The delta-frame JSON shape `{"choices":[{"delta":{"content": s}}]}`
carried by a normal streaming text frame. -/
def deltaFrame (s : String) : Json :=
  Json.obj [("choices", Json.arr [Json.obj [("delta", Json.obj [("content", Json.str s)])]])]

/-- Frame shapes the decoder skips without error: an object whose
`choices` key is absent or maps to an empty list, or whose first choice
is an object whose `delta` (an object, absent meaning `{}`) has no
`content` key. -/
def skipFrame (j : Json) : Bool :=
  match j with
  | .obj kvs =>
    match objLookupLast kvs "choices" with
    | none => true
    | some (.arr []) => true
    | some (.arr (c0 :: _)) =>
      (match c0 with
       | .obj ckvs =>
         match objLookupLast ckvs "delta" with
         | none => true
         | some (.obj dkvs) => (objLookupLast dkvs "content").isNone
         | some _ => false
       | _ => false)
    | some _ => false
  | _ => false

theorem dataTag_append_isEmpty (p : List Char) : (dataTag ++ p).isEmpty = false := rfl

theorem dataTag_self_isPrefixOf (p : List Char) : dataTag.isPrefixOf (dataTag ++ p) = true := by
  simp [dataTag, List.isPrefixOf]

theorem dataTag_append_drop (p : List Char) : (dataTag ++ p).drop 6 = p := rfl

theorem processLines_step_done (parse : List Char → Option Json) (line : List Char)
    (rest : List (List Char)) (acc : List Json)
    (hstrip : pyStrip line = dataTag ++ doneTag) :
    processLinesWith parse (line :: rest) acc = .ok acc := by
  conv_lhs => rw [processLinesWith.eq_def]
  simp [hstrip, dataTag_append_isEmpty, dataTag_self_isPrefixOf, dataTag_append_drop]

theorem processLines_step_noParse (parse : List Char → Option Json) (line p : List Char)
    (rest : List (List Char)) (acc : List Json)
    (hstrip : pyStrip line = dataTag ++ p) (hnd : p ≠ doneTag) (hp : parse p = none) :
    processLinesWith parse (line :: rest) acc = processLinesWith parse rest acc := by
  conv_lhs => rw [processLinesWith.eq_def]
  simp [hstrip, dataTag_append_isEmpty, dataTag_self_isPrefixOf, dataTag_append_drop, hnd, hp]

theorem processLines_step_extract (parse : List Char → Option Json) (line p : List Char)
    (rest : List (List Char)) (acc : List Json) (j : Json)
    (hstrip : pyStrip line = dataTag ++ p) (hnd : p ≠ doneTag) (hp : parse p = some j) :
    processLinesWith parse (line :: rest) acc =
      match extractDelta j with
      | .error e => .error e
      | .ok none => processLinesWith parse rest acc
      | .ok (some v) => processLinesWith parse rest (acc ++ [v]) := by
  conv_lhs => rw [processLinesWith.eq_def]
  simp [hstrip, dataTag_append_isEmpty, dataTag_self_isPrefixOf, dataTag_append_drop, hnd, hp]

theorem splitNl_append (x y : List Char) :
    splitNl (x ++ y) =
      ((splitNl x).1 ++ (splitNl ((splitNl x).2 ++ y)).1,
       (splitNl ((splitNl x).2 ++ y)).2) := by
  induction x with
  | nil => simp [splitNl]
  | cons c x ih =>
    by_cases hc : c = '\n'
    · subst hc
      simp [splitNl, ih]
    · simp only [List.cons_append, splitNl, if_neg hc, List.append_eq]
      rw [ih]
      cases h : splitNl x with
      | mk ls buf =>
        cases ls with
        | nil =>
          simp only []
          cases h2 : splitNl (buf ++ y) with
          | mk ls2 buf2 =>
            cases ls2 with
            | nil => simp [splitNl, if_neg hc, h2]
            | cons l2 ls2 => simp [splitNl, if_neg hc, h2]
        | cons l ls => simp [splitNl, if_neg hc]

theorem feedChunk_append (st : List (List Char) × List Char) (c1 c2 : List Char) :
    feedChunk (feedChunk st c1) c2 = feedChunk st (c1 ++ c2) := by
  unfold feedChunk
  simp only []
  rw [← List.append_assoc st.2 c1 c2, splitNl_append (st.2 ++ c1) c2]
  simp [List.append_assoc]

theorem foldl_feedChunk_cons (cs : List (List Char)) :
    ∀ (c : List Char) (st : List (List Char) × List Char),
      (c :: cs).foldl feedChunk st = feedChunk st (c ++ cs.flatten) := by
  induction cs with
  | nil => intro c st; simp [List.foldl]
  | cons c2 cs ih =>
    intro c st
    have h1 : (c :: c2 :: cs).foldl feedChunk st = (c2 :: cs).foldl feedChunk (feedChunk st c) := rfl
    rw [h1, ih c2 (feedChunk st c), feedChunk_append]
    simp [List.flatten]

theorem linesOfChunks_join (chunks : List (List Char)) :
    linesOfChunks chunks = linesOfChunks [chunks.flatten] := by
  cases chunks with
  | nil => rfl
  | cons c cs =>
    unfold linesOfChunks
    rw [foldl_feedChunk_cons]
    simp [List.foldl, List.flatten]

/-- C1: for every logical byte stream and every fragmentation into
arrival chunks, the decoder sees the same line sequence, emits the same
ordered fragment sequence, and the whole streaming call returns the same
result: frame boundaries are independent of chunk boundaries. -/
theorem chunk_boundary_independence (chunks1 chunks2 : List (List Char))
    (h : chunks1.flatten = chunks2.flatten) :
    linesOfChunks chunks1 = linesOfChunks chunks2
  ∧ (∀ (parse : List Char → Option Json) (acc : List Json),
      processLinesWith parse (linesOfChunks chunks1) acc =
        processLinesWith parse (linesOfChunks chunks2) acc)
  ∧ (∀ status : Nat,
      CustomClient.stream_completion status chunks1 =
        CustomClient.stream_completion status chunks2) := by
  have hl : linesOfChunks chunks1 = linesOfChunks chunks2 := by
    rw [linesOfChunks_join, h, ← linesOfChunks_join]
  refine ⟨hl, fun parse acc => by rw [hl], fun status => ?_⟩
  unfold CustomClient.stream_completion streamWith
  rw [hl]

/-- Witness for C1 at a concrete stream split two different ways across a
line boundary. -/
theorem chunk_boundary_independence_witness :
    linesOfChunks ["data: [D".toList, "ONE]\nrest".toList] =
      linesOfChunks ["data: [DONE]\nre".toList, "st".toList]
  ∧ CustomClient.stream_completion 200 ["data: [D".toList, "ONE]\nrest".toList] =
      CustomClient.stream_completion 200 ["data: [DONE]\nre".toList, "st".toList] := by
  have h := chunk_boundary_independence ["data: [D".toList, "ONE]\nrest".toList]
    ["data: [DONE]\nre".toList, "st".toList] (by decide)
  exact ⟨h.1, h.2.2 200⟩

/-- C2: one chat-loop turn starting from ledger length L appends the User
message and then either appends the Assistant message (length L+2) or, if
the completion call raises, pops the just-appended User message, leaving
exactly the original ledger (length L). -/
theorem turn_append_rollback (ledger : List Message) (u : Message)
    (completion : List Message → Except PyErr Message) :
    (∀ m, completion (ledger ++ [u]) = .ok m →
        turn ledger u completion = ledger ++ [u, m]
      ∧ (turn ledger u completion).length = ledger.length + 2)
  ∧ (∀ e, completion (ledger ++ [u]) = .error e →
        turn ledger u completion = ledger
      ∧ (turn ledger u completion).length = ledger.length) := by
  constructor
  · intro m hm
    unfold turn
    simp only [hm]
    constructor
    · simp
    · simp
  · intro e he
    unfold turn
    simp only [he]
    constructor
    · exact List.dropLast_concat ..
    · rw [List.dropLast_concat]

/-- Witness for C2: a succeeding and a failing completion call on a
one-message ledger. -/
theorem turn_append_rollback_witness :
    turn [Message.mk Role.SYSTEM "s"] (Message.mk Role.USER "hi")
        (fun _ => .ok (Message.mk Role.AI "yo")) =
      [Message.mk Role.SYSTEM "s", Message.mk Role.USER "hi", Message.mk Role.AI "yo"]
  ∧ turn [Message.mk Role.SYSTEM "s"] (Message.mk Role.USER "hi")
        (fun _ => .error PyErr.typeError) =
      [Message.mk Role.SYSTEM "s"] := by
  constructor
  · exact ((turn_append_rollback [Message.mk Role.SYSTEM "s"] (Message.mk Role.USER "hi")
      (fun _ => .ok (Message.mk Role.AI "yo"))).1 (Message.mk Role.AI "yo") rfl).1
  · exact ((turn_append_rollback [Message.mk Role.SYSTEM "s"] (Message.mk Role.USER "hi")
      (fun _ => .error PyErr.typeError)).2 PyErr.typeError rfl).1

/-- C4: a data line whose stripped form is `data: [DONE]` ends the
fragment sequence at once with the fragments collected so far and no
error, whatever lines follow; a stream consisting solely of
`"data: [DONE]\n"` yields zero fragments and a clean empty Assistant
message. -/
theorem done_sentinel_terminates :
    (∀ (parse : List Char → Option Json) (line : List Char)
        (rest : List (List Char)) (acc : List Json),
      pyStrip line = dataTag ++ doneTag →
      processLinesWith parse (line :: rest) acc = .ok acc)
  ∧ processLinesWith Json.parse (linesOfChunks ["data: [DONE]\n".toList]) [] = .ok []
  ∧ CustomClient.stream_completion 200 ["data: [DONE]\n".toList] =
      .ok (Message.mk Role.AI "") := by
  refine ⟨fun parse line rest acc h => processLines_step_done parse line rest acc h, ?_, ?_⟩
  · rfl
  · rfl

/-- Witness for C4's universal part at a concrete sentinel line. -/
theorem done_sentinel_terminates_witness :
    processLinesWith Json.parse ["data: [DONE]".toList, "data: later".toList] [] = .ok [] :=
  done_sentinel_terminates.1 Json.parse "data: [DONE]".toList ["data: later".toList] [] (by decide)

theorem extractDelta_deltaFrame (s : String) :
    extractDelta (deltaFrame s) = .ok (some (Json.str s)) := rfl

theorem parse_ne_doneTag (parse : List Char → Option Json) (p : List Char) (j : Json)
    (hdone : parse doneTag = none) (hp : parse p = some j) : p ≠ doneTag := by
  intro he
  rw [he, hdone] at hp
  exact Option.noConfusion hp

/-- C3: an input line stream of three data lines — a valid delta frame,
then a payload on which the JSON decode fails (and which is not the
`[DONE]` sentinel, which is intercepted before decoding), then another
valid delta frame — yields exactly the two valid fragments in arrival
order and raises no error; the corrupt frame is dropped. The payload
decode function is abstract, constrained exactly as the claim describes
the three payloads (`json.loads` rejects `"[DONE]"`, satisfying the first
hypothesis). -/
theorem malformed_frame_skipped (parse : List Char → Option Json)
    (p1 m p2 : List Char) (s1 s2 : String)
    (hdone : parse doneTag = none)
    (h1 : parse p1 = some (deltaFrame s1))
    (h2 : parse p2 = some (deltaFrame s2))
    (hm : parse m = none) (hmd : m ≠ doneTag)
    (t1 : pyStrip (dataTag ++ p1) = dataTag ++ p1)
    (tm : pyStrip (dataTag ++ m) = dataTag ++ m)
    (t2 : pyStrip (dataTag ++ p2) = dataTag ++ p2) :
    processLinesWith parse [dataTag ++ p1, dataTag ++ m, dataTag ++ p2] [] =
      .ok [Json.str s1, Json.str s2] := by
  rw [processLines_step_extract parse (dataTag ++ p1) p1 _ _ _ t1
    (parse_ne_doneTag parse p1 _ hdone h1) h1, extractDelta_deltaFrame]
  show processLinesWith parse [dataTag ++ m, dataTag ++ p2] [Json.str s1] =
    Except.ok [Json.str s1, Json.str s2]
  rw [processLines_step_noParse parse (dataTag ++ m) m _ _ tm hmd hm]
  rw [processLines_step_extract parse (dataTag ++ p2) p2 _ _ _ t2
    (parse_ne_doneTag parse p2 _ hdone h2) h2, extractDelta_deltaFrame]
  rfl

/-- Witness for C3 with `json.loads` and concrete payloads: fragments `A`
and `B` around the malformed payload `{`. -/
theorem malformed_frame_skipped_witness :
    processLinesWith Json.parse
      [("data: \x7b\"choices\":[\x7b\"delta\":\x7b\"content\":\"A\"\x7d\x7d]\x7d").toList,
       "data: \x7b".toList,
       ("data: \x7b\"choices\":[\x7b\"delta\":\x7b\"content\":\"B\"\x7d\x7d]\x7d").toList] [] =
      .ok [Json.str "A", Json.str "B"] := by
  have h := malformed_frame_skipped Json.parse
    "\x7b\"choices\":[\x7b\"delta\":\x7b\"content\":\"A\"\x7d\x7d]\x7d".toList
    "\x7b".toList
    "\x7b\"choices\":[\x7b\"delta\":\x7b\"content\":\"B\"\x7d\x7d]\x7d".toList
    "A" "B" rfl rfl rfl rfl (by decide) rfl rfl rfl
  exact h

theorem objLookupLast_isSome (kvs : List (String × Json)) (k : String) :
    (objLookupLast kvs k).isSome = kvs.any (fun kv => kv.1 == k) := by
  induction kvs with
  | nil => rfl
  | cons kv rest ih =>
    obtain ⟨k1, v1⟩ := kv
    simp only [objLookupLast, List.any_cons]
    cases h : objLookupLast rest k with
    | some v =>
      have hany : rest.any (fun kv => kv.1 == k) = true := by rw [← ih, h]; rfl
      rw [hany]
      simp
    | none =>
      have hany : rest.any (fun kv => kv.1 == k) = false := by rw [← ih, h]; rfl
      rw [hany]
      cases hk : k1 == k <;> simp [hk]

theorem extractDelta_skipFrame (j : Json) (h : skipFrame j = true) :
    extractDelta j = .ok none := by
  cases j with
  | null => simp [skipFrame] at h
  | bool b => simp [skipFrame] at h
  | num l => simp [skipFrame] at h
  | str s => simp [skipFrame] at h
  | arr xs => simp [skipFrame] at h
  | obj kvs =>
    unfold skipFrame at h
    simp only [] at h
    unfold extractDelta pyContains
    simp only []
    cases hc : objLookupLast kvs "choices" with
    | none =>
      have hany : kvs.any (fun kv => kv.1 == "choices") = false := by
        rw [← objLookupLast_isSome, hc]; rfl
      rw [hany]
    | some v =>
      have hany : kvs.any (fun kv => kv.1 == "choices") = true := by
        rw [← objLookupLast_isSome, hc]; rfl
      rw [hany]
      simp only [hc] at h
      cases v with
      | null => simp at h
      | bool b => simp at h
      | num l => simp at h
      | str s => simp at h
      | obj okvs => simp at h
      | arr xs =>
        cases xs with
        | nil => simp [pySubscriptStr, hc, pyLen]
        | cons c0 cs =>
          cases c0 with
          | null => simp at h
          | bool b => simp at h
          | num l => simp at h
          | str s => simp at h
          | arr ys => simp at h
          | obj ckvs =>
            simp only [pySubscriptStr, hc, pyLen, pyIndexZero, pyGetDefault, List.length_cons]
            cases hd : objLookupLast ckvs "delta" with
            | none => simp [hd, pyContains]
            | some d =>
              simp only [hd] at h
              cases d with
              | null => simp at h
              | bool b => simp at h
              | num l => simp at h
              | str s => simp at h
              | arr ys => simp at h
              | obj dkvs =>
                simp only [Option.isNone] at h
                have hnone : objLookupLast dkvs "content" = none := by
                  cases h2 : objLookupLast dkvs "content" with
                  | none => rfl
                  | some w => rw [h2] at h; exact absurd h (by simp)
                have hany2 : dkvs.any (fun kv => kv.1 == "content") = false := by
                  rw [← objLookupLast_isSome, hnone]; rfl
                simp [hd, pyContains, hany2]

/-- C5 fails as stated: the payload `{"choices":[0]}` parses as a
structured record and does not pass the navigation steps, yet the decoder
does not skip it — `chunk_json['choices'][0].get('delta', {})` raises an
uncaught `AttributeError` (only `json.JSONDecodeError` is caught), and
the whole streaming call fails instead of returning normally. -/
theorem contentless_frame_raises_counterexample :
    Json.parse "\x7b\"choices\":[0]\x7d".toList =
      some (Json.obj [("choices", Json.arr [Json.num ['0']])])
  ∧ processLinesWith Json.parse ["data: \x7b\"choices\":[0]\x7d".toList] [] =
      .error PyErr.attributeError
  ∧ CustomClient.stream_completion 200 ["data: \x7b\"choices\":[0]\x7d\n".toList] =
      .error PyErr.attributeError :=
  ⟨rfl, rfl, rfl⟩

/-- C5 amended: a data frame whose payload parses to an object in which
`choices` is absent, or maps to an empty list, or maps to a non-empty
list whose first element is an object whose `delta` entry (an object,
absent meaning `{}`) has no `content` key, is skipped: zero fragments for
that line, decoding continues with the next line, no error. -/
theorem contentless_frame_skipped (parse : List Char → Option Json)
    (p : List Char) (j : Json) (rest : List (List Char)) (acc : List Json)
    (hp : parse p = some j) (hshape : skipFrame j = true)
    (hstrip : pyStrip (dataTag ++ p) = dataTag ++ p) (hnd : p ≠ doneTag) :
    processLinesWith parse ((dataTag ++ p) :: rest) acc = processLinesWith parse rest acc := by
  rw [processLines_step_extract parse (dataTag ++ p) p rest acc j hstrip hnd hp,
    extractDelta_skipFrame j hshape]

/-- Witness for C5's amended statement at a concrete finish-reason
control frame. -/
theorem contentless_frame_skipped_witness :
    processLinesWith Json.parse
      [("data: " ++ "\x7b\"choices\":[\x7b\"delta\":\x7b\x7d,\"finish_reason\":\"stop\"\x7d]\x7d").toList]
      [] = processLinesWith Json.parse [] [] := by
  have h := contentless_frame_skipped Json.parse
    "\x7b\"choices\":[\x7b\"delta\":\x7b\x7d,\"finish_reason\":\"stop\"\x7d]\x7d".toList
    (Json.obj [("choices",
      Json.arr [Json.obj [("delta", Json.obj []), ("finish_reason", Json.str "stop")]])])
    [] [] rfl rfl rfl (by decide)
  exact h

/-- C6 fails on the code: `stream_completion` prints but never checks the
HTTP status (no `raise_for_status` and no status test), so the result is
the same for every status; a 500 response whose JSON error body contains
no `data: ` frames yields a normal empty Assistant message instead of a
transport-level failure. -/
theorem stream_ignores_http_status :
    (∀ (status : Nat) (chunks : List (List Char)),
      CustomClient.stream_completion status chunks =
        CustomClient.stream_completion 200 chunks)
  ∧ CustomClient.stream_completion 500
      ["\x7b\"error\": \"Internal Server Error\"\x7d\n".toList] =
      .ok (Message.mk Role.AI "") :=
  ⟨fun _ _ => rfl, rfl⟩

theorem joinStr_map_str (frags : List String) :
    joinStr (frags.map Json.str) = .ok (concatAll frags) := by
  induction frags with
  | nil => rfl
  | cons f rest ih =>
    simp only [List.map_cons, joinStr, ih]
    rfl

/-- C7: whenever the line loop collects the fragment list (as strings),
the streaming call returns an Assistant message whose content is their
concatenation in arrival order; in particular delta frames `"Hel"`,
`"lo"`, `" world"` yield `"Hello world"`. -/
theorem content_is_fragment_concat (parse : List Char → Option Json) (status : Nat)
    (chunks : List (List Char)) (frags : List String)
    (h : processLinesWith parse (linesOfChunks chunks) [] = .ok (frags.map Json.str)) :
    streamWith parse status chunks = .ok (Message.mk Role.AI (concatAll frags))
  ∧ CustomClient.stream_completion 200
      [("data: \x7b\"choices\":[\x7b\"delta\":\x7b\"content\":\"Hel\"\x7d\x7d]\x7d\n"
        ++ "data: \x7b\"choices\":[\x7b\"delta\":\x7b\"content\":\"lo\"\x7d\x7d]\x7d\n").toList,
       ("data: \x7b\"choices\":[\x7b\"delta\":\x7b\"content\":\" world\"\x7d\x7d]\x7d\n"
        ++ "data: [DONE]\n").toList] =
      .ok (Message.mk Role.AI "Hello world") := by
  constructor
  · unfold streamWith
    rw [h]
    simp only [joinStr_map_str]
  · rfl

/-- Witness for C7 at the `"Hello world"` stream. -/
theorem content_is_fragment_concat_witness :
    streamWith Json.parse 200
      [("data: \x7b\"choices\":[\x7b\"delta\":\x7b\"content\":\"Hel\"\x7d\x7d]\x7d\n"
        ++ "data: \x7b\"choices\":[\x7b\"delta\":\x7b\"content\":\"lo\"\x7d\x7d]\x7d\n").toList,
       ("data: \x7b\"choices\":[\x7b\"delta\":\x7b\"content\":\" world\"\x7d\x7d]\x7d\n"
        ++ "data: [DONE]\n").toList] =
      .ok (Message.mk Role.AI (concatAll ["Hel", "lo", " world"])) :=
  (content_is_fragment_concat Json.parse 200
    [("data: \x7b\"choices\":[\x7b\"delta\":\x7b\"content\":\"Hel\"\x7d\x7d]\x7d\n"
      ++ "data: \x7b\"choices\":[\x7b\"delta\":\x7b\"content\":\"lo\"\x7d\x7d]\x7d\n").toList,
     ("data: \x7b\"choices\":[\x7b\"delta\":\x7b\"content\":\" world\"\x7d\x7d]\x7d\n"
      ++ "data: [DONE]\n").toList]
    ["Hel", "lo", " world"] rfl).1

/-- C8: a non-streaming response with an empty `choices` list makes the
transport raise — `client.py` raises
`Exception("No choices in response found")` (the spec's
`EmptyResponseError`), and `custom_client.py`'s subscript
`response_json["choices"][0]` raises `IndexError` — and a raising
completion call leaves the ledger unchanged, so no Assistant message is
appended. -/
theorem empty_choices_error_rollback :
    (∀ response : SDKResponse, response.choices = [] →
      Client.get_completion response =
        .error (PyErr.exceptionMsg "No choices in response found"))
  ∧ CustomClient.get_completion 200 "\x7b\"choices\": []\x7d".toList =
      .error PyErr.indexError
  ∧ (∀ (ledger : List Message) (u : Message)
        (completion : List Message → Except PyErr Message) (e : PyErr),
      completion (ledger ++ [u]) = .error e → turn ledger u completion = ledger) := by
  refine ⟨?_, rfl, ?_⟩
  · intro response h
    unfold Client.get_completion
    rw [h]
  · intro ledger u completion e he
    unfold turn
    simp only [he]
    exact List.dropLast_concat ..

/-- Witness for C8: an empty SDK response raises the empty-choices
exception, and a turn whose completion raises it restores the ledger. -/
theorem empty_choices_error_rollback_witness :
    Client.get_completion (SDKResponse.mk []) =
      .error (PyErr.exceptionMsg "No choices in response found")
  ∧ turn [Message.mk Role.SYSTEM "s"] (Message.mk Role.USER "q")
      (fun _ => .error (PyErr.exceptionMsg "No choices in response found")) =
      [Message.mk Role.SYSTEM "s"] :=
  ⟨empty_choices_error_rollback.1 (SDKResponse.mk []) rfl,
   empty_choices_error_rollback.2.2 [Message.mk Role.SYSTEM "s"] (Message.mk Role.USER "q")
     (fun _ => .error (PyErr.exceptionMsg "No choices in response found"))
     (PyErr.exceptionMsg "No choices in response found") rfl⟩

/-- C9 fails as stated: `get_completion` logs `response.json()` before the
status check, so a non-2xx response whose body is not JSON fails with the
JSON decode error (the malformed-body kind), not the HTTP-status
transport error. -/
theorem non2xx_nonjson_body_counterexample :
    CustomClient.get_completion 500 "Internal Server Error".toList =
      .error PyErr.jsonDecodeError
  ∧ PyErr.jsonDecodeError ≠ PyErr.httpStatus 500 :=
  ⟨rfl, by decide⟩

/-- C9 amended: for a non-2xx response whose body does parse as JSON, the
call fails with the HTTP-status transport error (`raise Exception(f"HTTP
{status_code}: ...")`), which is distinct from the malformed-body decode
error; when the body is not JSON, the logging step's `response.json()`
raises the decode error first. -/
theorem non2xx_json_body_raises_http_error (status_code : Nat) (body : List Char) (j : Json)
    (hj : Json.parse body = some j) (hs : ¬ (200 ≤ status_code ∧ status_code < 300)) :
    CustomClient.get_completion status_code body = .error (PyErr.httpStatus status_code)
  ∧ PyErr.httpStatus status_code ≠ PyErr.jsonDecodeError := by
  constructor
  · unfold CustomClient.get_completion
    rw [hj]
    have hne : status_code ≠ 200 := by
      intro he
      exact hs ⟨le_of_eq he.symm, by rw [he]; exact Nat.lt_of_sub_eq_succ rfl⟩
    simp [hne]
  · intro h
    exact PyErr.noConfusion h

/-- Witness for C9's amended statement at a 500 response with a JSON
error body. -/
theorem non2xx_json_body_raises_http_error_witness :
    CustomClient.get_completion 500 "\x7b\"error\": \"boom\"\x7d".toList =
      .error (PyErr.httpStatus 500) :=
  (non2xx_json_body_raises_http_error 500 "\x7b\"error\": \"boom\"\x7d".toList
    (Json.obj [("error", Json.str "boom")]) rfl (by decide)).1

/-- C10: every fragment the SDK-based `stream_completion` collects is a
non-empty string, because the guard
`if chunk.choices and chunk.choices[0].delta.content:` is Python
truthiness; a chunk with an empty choices list, an absent/None content,
or an empty-string content contributes no fragment (its branch neither
prints nor appends). -/
theorem sdk_fragments_nonempty :
    (∀ (chunks : List SDKChunk) (s : String),
      s ∈ Client.stream_fragments chunks → s ≠ "")
  ∧ (∀ (ch : SDKChunk) (rest : List SDKChunk),
      (ch.choices = []
        ∨ ∃ c0 cs, ch.choices = c0 :: cs
            ∧ (c0.delta.content = none ∨ c0.delta.content = some "")) →
      Client.stream_fragments (ch :: rest) = Client.stream_fragments rest) := by
  constructor
  · intro chunks
    induction chunks with
    | nil => intro s hs; exact absurd hs (by simp [Client.stream_fragments])
    | cons ch rest ih =>
      intro s hs
      unfold Client.stream_fragments at hs
      cases hch : ch.choices with
      | nil =>
        rw [hch] at hs
        exact ih s hs
      | cons c0 cs =>
        rw [hch] at hs
        simp only [] at hs
        cases hc : c0.delta.content with
        | none =>
          rw [hc] at hs
          exact ih s hs
        | some f =>
          rw [hc] at hs
          simp only [] at hs
          by_cases hf : f = ""
          · rw [if_pos hf] at hs
            exact ih s hs
          · rw [if_neg hf] at hs
            cases hs with
            | head => exact hf
            | tail _ h2 => exact ih s h2
  · intro ch rest h
    conv_lhs => rw [Client.stream_fragments.eq_def]
    simp only []
    cases h with
    | inl h0 => rw [h0]
    | inr hex =>
      obtain ⟨c0, cs, hch, hc⟩ := hex
      rw [hch]
      simp only []
      cases hc with
      | inl hn => rw [hn]
      | inr he => rw [he]; simp

/-- Witness for C10: a stream of one empty-choices chunk, one None-delta
chunk, one empty-string chunk and one real chunk collects only the
non-empty fragment. -/
theorem sdk_fragments_nonempty_witness :
    ("x" ∈ Client.stream_fragments
        [SDKChunk.mk [], SDKChunk.mk [SDKChoice.mk (SDKDelta.mk none)],
         SDKChunk.mk [SDKChoice.mk (SDKDelta.mk (some ""))],
         SDKChunk.mk [SDKChoice.mk (SDKDelta.mk (some "x"))]] → "x" ≠ "")
  ∧ Client.stream_fragments
      [SDKChunk.mk [], SDKChunk.mk [SDKChoice.mk (SDKDelta.mk (some "x"))]] =
      Client.stream_fragments [SDKChunk.mk [SDKChoice.mk (SDKDelta.mk (some "x"))]] :=
  ⟨sdk_fragments_nonempty.1
      [SDKChunk.mk [], SDKChunk.mk [SDKChoice.mk (SDKDelta.mk none)],
       SDKChunk.mk [SDKChoice.mk (SDKDelta.mk (some ""))],
       SDKChunk.mk [SDKChoice.mk (SDKDelta.mk (some "x"))]] "x",
   sdk_fragments_nonempty.2 (SDKChunk.mk [])
      [SDKChunk.mk [SDKChoice.mk (SDKDelta.mk (some "x"))]] (Or.inl rfl)⟩
